import Mathlib

/-!
Verification of the data-access and presentation layer of `dash_proto.py`
(an operational log-inspection dashboard).

The Python source is shallowly embedded:
* database cell values are `Value` (strings / integers / NULL);
* a `pyodbc` cursor result is `CursorResult` (ordered column names plus rows);
* a connection is `Conn`, a function from (SQL text, parameters) to either a
  `CursorResult` or a raised `pyodbc` error (modelled as `Except String`);
* every repository method is a Lean function from a `Conn` and its inputs to
  an `OpResult`, which records the returned value (or the propagated
  exception), how many cursors were opened, the queries sent to the data
  source, and the non-fatal notifications shown to the user
  (`st.error` / `st.warning` calls);
* the direction-inference SQL (the `OperationType_CTE` common table
  expression) is additionally embedded semantically, as a function over a
  list of TIXLOG rows, mirroring the `CASE`/`MAX` aggregation it performs.
-/

/-- A database cell value, as surfaced through the pyodbc driver. -/
inductive Value where
  | null
  | str (s : String)
  | int (n : Int)
deriving DecidableEq, Repr

/-- One row of a raw result set: a positional sequence of values. -/
abbrev Row := List Value

/-- A Python dictionary from column names to values, in insertion order. -/
abbrev Dict := List (String × Value)

/-- A cursor's result: `description` holds the ordered column names
(the first component of each `cursor.description` entry) and `rows` holds
what `fetchall()` returns. -/
structure CursorResult where
  description : List String
  rows : List Row
deriving DecidableEq

/-- A database connection: executing SQL text with parameters either yields
a cursor result or raises a driver error (`pyodbc.Error`, carried as a
message string). -/
structure Conn where
  exec : String → List Value → Except String CursorResult

/-- Python `dict` insertion: assigning to an existing key overwrites its
value in place (the key keeps its original position); a fresh key is
appended at the end. -/
def dictInsert (d : Dict) (k : String) (v : Value) : Dict :=
  if d.any (fun p => p.1 == k) then
    d.map (fun p => if p.1 == k then (k, v) else p)
  else
    d ++ [(k, v)]

/-- Python `dict(zip(columns, row))`: `zip` truncates to the shorter list,
and the pairs are inserted left to right. -/
def dictZip (cols : List String) (row : Row) : Dict :=
  (cols.zip row).foldl (fun d p => dictInsert d p.1 p.2) []

/-- Model of `_format_results` (shared verbatim by all four repository classes):
`columns = [column[0] for column in cursor.description]` followed by
`[dict(zip(columns, row)) for row in cursor.fetchall()]`. -/
def format_results (cur : CursorResult) : List Dict :=
  cur.rows.map (fun row => dictZip cur.description row)

instance (α β : Type) [DecidableEq α] [DecidableEq β] :
    DecidableEq (Except α β) := fun a b =>
  match a, b with
  | .ok x, .ok y =>
    if h : x = y then .isTrue (by rw [h])
    else .isFalse (by intro hc; cases hc; exact h rfl)
  | .error x, .error y =>
    if h : x = y then .isTrue (by rw [h])
    else .isFalse (by intro hc; cases hc; exact h rfl)
  | .ok _, .error _ => .isFalse (by intro hc; cases hc)
  | .error _, .ok _ => .isFalse (by intro hc; cases hc)

/-- The observable outcome of one repository method call: the Python return
value (or the exception it lets escape), the number of cursors it opened,
the queries it sent to the data source, and the non-fatal notifications it
displayed. -/
structure OpResult where
  result : Except String (List Dict)
  cursorsOpened : Nat
  queries : List (String × List Value)
  notifications : List String
deriving DecidableEq

/-- Outcome of a method that returned without touching the data source. -/
def OpResult.noInteraction (value : List Dict) : OpResult :=
  ⟨.ok value, 0, [], []⟩

namespace TixlogRepository

/-- The shared `SELECT` head used by the four simple TIXLOG searches. -/
def tixlogBase : String :=
  "SELECT TOP (1000) * FROM [indigo_pix].[dbo].[TIXLOG] WITH (NOLOCK)"

/-- Model of `TixlogRepository._execute_query`: opens a temporary cursor, runs
`f"\x7bbase_query\x7d WHERE \x7bwhere_clause\x7d ORDER BY ID DESC"` with the
given parameters, and formats the result.  The Python body is
`try: ... finally: cursor.close()` with no `except` clause, so a driver
error closes the cursor but propagates to the caller. -/
def execute_query (conn : Conn) (base_query where_clause : String)
    (params : List Value) : OpResult :=
  let sql_query := base_query ++ " WHERE " ++ where_clause ++ " ORDER BY ID DESC"
  match conn.exec sql_query params with
  | .ok cur => ⟨.ok (format_results cur), 1, [(sql_query, params)], []⟩
  | .error e => ⟨.error e, 1, [(sql_query, params)], []⟩

/-- Model of `find_by_nr_controle`: `if not nr_controle: return []` (Python string
truthiness, i.e. only the empty string short-circuits), otherwise the
shared query helper with predicate `NR_CONTROLE = ?`. -/
def find_by_nr_controle (conn : Conn) (nr_controle : String) : OpResult :=
  if nr_controle.isEmpty then .noInteraction []
  else execute_query conn tixlogBase "NR_CONTROLE = ?" [.str nr_controle]

/-- Model of `find_by_idreqjdpi`: same shape with predicate `IDREQJDPI = ?`. -/
def find_by_idreqjdpi (conn : Conn) (idreqjdpi : String) : OpResult :=
  if idreqjdpi.isEmpty then .noInteraction []
  else execute_query conn tixlogBase "IDREQJDPI = ?" [.str idreqjdpi]

/-- Python `', '.join(strings)`. -/
def pyJoin (sep : String) : List String → String
  | [] => ""
  | a :: as => as.foldl (fun acc b => acc ++ sep ++ b) a

/-- The `IN` predicate built by `find_by_nr_controle_in`:
`placeholders = ', '.join(['?' for _ in nr_controles])` spliced into
`f"NR_CONTROLE IN (\x7bplaceholders\x7d)"`. -/
def in_where_clause (nr_controles : List String) : String :=
  "NR_CONTROLE IN (" ++ pyJoin ", " (nr_controles.map (fun _ => "?")) ++ ")"

/-- Model of `find_by_nr_controle_in`: `if not nr_controles: return []`, otherwise
the shared query helper with the `IN (?, ?, …)` predicate and the list
elements as the parameter tuple. -/
def find_by_nr_controle_in (conn : Conn) (nr_controles : List String) : OpResult :=
  if nr_controles.isEmpty then .noInteraction []
  else execute_query conn tixlogBase (in_where_clause nr_controles)
    (nr_controles.map Value.str)

/-- The full SQL text of `find_by_json_content` (string quotes written with
escapes). -/
def jsonContentQuery : String :=
  "SELECT TOP (1000) *, CASE WHEN [JSON] LIKE ? AND [JSON_RETORNO] LIKE ? THEN \x27Ambos\x27 WHEN [JSON] LIKE ? THEN \x27JSON Enviado\x27 WHEN [JSON_RETORNO] LIKE ? THEN \x27JSON Retorno\x27 END AS LocalEncontrado FROM [indigo_pix].[dbo].[TIXLOG] WITH (NOLOCK) WHERE ([JSON] LIKE ? OR [JSON_RETORNO] LIKE ?) ORDER BY ID DESC"

/-- Model of `find_by_json_content`: empty input short-circuits; otherwise a private
cursor runs the `LIKE` query with six copies of `%text%`; a `pyodbc.Error`
is caught, shown via `st.error`, and an empty list is returned. -/
def find_by_json_content (conn : Conn) (text_to_find : String) : OpResult :=
  if text_to_find.isEmpty then .noInteraction []
  else
    let param_value := Value.str ("%" ++ text_to_find ++ "%")
    let params := [param_value, param_value, param_value, param_value,
      param_value, param_value]
    match conn.exec jsonContentQuery params with
    | .ok cur => ⟨.ok (format_results cur), 1, [(jsonContentQuery, params)], []⟩
    | .error e => ⟨.ok [], 1, [(jsonContentQuery, params)],
        ["Erro ao executar a busca no JSON: " ++ e]⟩

/-- Model of `find_by_origem`: same shape as `find_by_nr_controle`, predicate
`ORIGEM = ?`. -/
def find_by_origem (conn : Conn) (origem : String) : OpResult :=
  if origem.isEmpty then .noInteraction []
  else execute_query conn tixlogBase "ORIGEM = ?" [.str origem]

end TixlogRepository

namespace MclogRepository

/-- The SQL text of `MclogRepository.find_by_outras_info`. -/
def outrasInfoQuery : String :=
  "SELECT TOP (1000) * FROM [indigo_cad].[dbo].[MCLOG] WITH (NOLOCK) WHERE OUTRAS_INFO LIKE ? ORDER BY ID DESC"

/-- Model of `MclogRepository.find_by_outras_info`: empty input short-circuits;
otherwise a private cursor runs the `LIKE` query with `%term%`; a
`pyodbc.Error` is caught, shown via `st.error`, and an empty list is
returned. -/
def find_by_outras_info (conn : Conn) (search_term : String) : OpResult :=
  if search_term.isEmpty then .noInteraction []
  else
    let params := [Value.str ("%" ++ search_term ++ "%")]
    match conn.exec outrasInfoQuery params with
    | .ok cur => ⟨.ok (format_results cur), 1, [(outrasInfoQuery, params)], []⟩
    | .error e => ⟨.ok [], 1, [(outrasInfoQuery, params)],
        ["Erro ao executar a busca em MCLOG: " ++ e]⟩

end MclogRepository

namespace Mix100Repository

/-- The SQL text of `Mix100Repository.find_by_nr_controle`. -/
def nrControleQuery : String :=
  "SELECT TOP (500) * FROM [indigo_pix].[dbo].[MIX100] WITH (NOLOCK) WHERE NR_CONTROLE = ? ORDER BY id DESC"

/-- Model of `Mix100Repository.find_by_nr_controle`: empty input short-circuits;
otherwise a private cursor runs the query; a `pyodbc.Error` is caught and
degrades to an empty list. -/
def find_by_nr_controle (conn : Conn) (nr_controle : String) : OpResult :=
  if nr_controle.isEmpty then .noInteraction []
  else
    let params := [Value.str nr_controle]
    match conn.exec nrControleQuery params with
    | .ok cur => ⟨.ok (format_results cur), 1, [(nrControleQuery, params)], []⟩
    | .error e => ⟨.ok [], 1, [(nrControleQuery, params)],
        ["Erro ao executar a busca em MIX100: " ++ e]⟩

/-- The SQL text of `Mix100Repository.find_by_endtoendiddevolucao`. -/
def endToEndQuery : String :=
  "SELECT TOP (500) * FROM [indigo_pix].[dbo].[MIX100] WITH (NOLOCK) WHERE ENDTOENDIDDEVOLUCAO = ? ORDER BY id DESC"

/-- Model of `Mix100Repository.find_by_endtoendiddevolucao`: empty input
short-circuits; otherwise a private cursor runs the query; a `pyodbc.Error`
is caught and degrades to an empty list. -/
def find_by_endtoendiddevolucao (conn : Conn) (endtoendid : String) : OpResult :=
  if endtoendid.isEmpty then .noInteraction []
  else
    let params := [Value.str endtoendid]
    match conn.exec endToEndQuery params with
    | .ok cur => ⟨.ok (format_results cur), 1, [(endToEndQuery, params)], []⟩
    | .error e => ⟨.ok [], 1, [(endToEndQuery, params)],
        ["Erro ao executar a busca por EndToEndId Devolução: " ++ e]⟩

end Mix100Repository

namespace MclogCctRepository

/-- The SQL text of `MclogCctRepository.find_by_kyt_id`. -/
def kytQuery : String :=
  "SELECT TOP (5000) * FROM [indigo_cct].[dbo].[MCLOG] WITH (NOLOCK) WHERE OUTRAS_INFO LIKE ? ORDER BY id DESC"

/-- Model of `MclogCctRepository.find_by_kyt_id`: empty input short-circuits;
otherwise a private cursor runs the `LIKE` query with `%kyt_id%`; a
`pyodbc.Error` is caught and degrades to an empty list. -/
def find_by_kyt_id (conn : Conn) (kyt_id : String) : OpResult :=
  if kyt_id.isEmpty then .noInteraction []
  else
    let params := [Value.str ("%" ++ kyt_id ++ "%")]
    match conn.exec kytQuery params with
    | .ok cur => ⟨.ok (format_results cur), 1, [(kytQuery, params)], []⟩
    | .error e => ⟨.ok [], 1, [(kytQuery, params)],
        ["Erro ao executar a busca por ID KYT: " ++ e]⟩

end MclogCctRepository

/-- A connection on which every query raises the given driver error. -/
def failConn (e : String) : Conn := ⟨fun _ _ => .error e⟩

/-! ## Semantic model of the direction-inference SQL

`get_transaction_summary` and `get_performance_summary_data` share the
`OperationType_CTE` common table expression: per row a `CASE` expression
labels the row `'OUT'`, `'IN'` or `'Indefinido'`, and `MAX(...)` (SQL string
maximum) aggregates the labels of all rows with the given `NR_CONTROLE`.
We embed the query semantically over a list of TIXLOG rows. -/

/-- The TIXLOG columns consulted by the direction-inference CTE. -/
structure TixRow where
  id : Nat
  nr_controle : String
  usuario : String
  descricao : String
deriving DecidableEq, Repr

/-- Tests whether `s` starts with `pat` (on character lists). -/
def startsWithL : List Char → List Char → Bool
  | [], _ => true
  | _ :: _, [] => false
  | a :: as, b :: bs => a == b && startsWithL as bs

/-- Tests whether `pat` occurs as a contiguous substring of `s` (on character lists). -/
def hasSubList (pat : List Char) : List Char → Bool
  | [] => pat.isEmpty
  | b :: bs => startsWithL pat (b :: bs) || hasSubList pat bs

/-- SQL `col LIKE '%pat%'`: `pat` occurs as a substring of `s`.
(The server collation may be case-insensitive; the dashboard only ever
matches the fixed upper-case keywords below, so we model the containment
test literally.) -/
def likeContains (s pat : String) : Bool := hasSubList pat.data s.data

/-- The per-row `CASE` of `OperationType_CTE`:
`WHEN USUARIO = 'envia_pix_prod' OR DESCRICAO LIKE '%DÉBITO%' THEN 'OUT'`,
`WHEN USUARIO = 'recebe_pix_prod' OR DESCRICAO LIKE '%CRÉDITO%' THEN 'IN'`,
`ELSE 'Indefinido'` (branches tried in order, first match wins). -/
def caseTipoOperacao (r : TixRow) : String :=
  if r.usuario == "envia_pix_prod" || likeContains r.descricao "DÉBITO" then "OUT"
  else if r.usuario == "recebe_pix_prod" || likeContains r.descricao "CRÉDITO" then "IN"
  else "Indefinido"

/-- Binary string maximum, as used by SQL `MAX` over `VARCHAR`.  On the
three labels produced here (`'IN'`, `'Indefinido'`, `'OUT'`) the usual
case-insensitive server collation and Lean's code-point order agree
(`"IN" < "Indefinido" < "OUT"`), so we use the latter. -/
def sqlMaxStr (a b : String) : String := if a < b then b else a

/-- SQL `MAX` over a group of string labels; an empty group yields no
aggregation row at all (`none`). -/
def tipoOperacaoMax : List String → Option String
  | [] => none
  | l :: ls => some (ls.foldl sqlMaxStr l)

/-- The `Tipo_Operacao` column computed for one `NR_CONTROLE`: the SQL
`MAX` of the per-row `CASE` labels over all TIXLOG rows carrying that
correlation id (`none` when the table has no such row, in which case the
summary query returns no row at all). -/
def inferred_direction (table : List TixRow) (nr_controle : String) : Option String :=
  tipoOperacaoMax
    ((table.filter (fun r => r.nr_controle == nr_controle)).map caseTipoOperacao)

/-! ## Connection guardian (`init_connection` / `check_connection`) -/

/-- The four repository instances stored in `st.session_state.repos`,
each recorded by the connection handle it is bound to. -/
structure Repos where
  tixlog : Conn
  mclog : Conn
  mix100 : Conn
  mclog_cct : Conn

/-- The process-wide session slot.  In the source, `db_connection` and
`repos` are always assigned together (both set by a successful
`init_connection`, both cleared to `None` by a failed one), so the state is
either absent/cleared or one connection paired with its repositories. -/
structure SessionState where
  conn_repos : Option (Conn × Repos)

/-- What the environment does right now: the outcome of
`pyodbc.connect(st.secrets[...])` when attempted. -/
structure Env where
  connectResult : Except String Conn

/-- Outcome of a guardian call: the new session state, the returned
repositories (`None` on failure), the notifications displayed, and the
number of connection-establishment attempts performed. -/
structure GuardResult where
  state : SessionState
  repos : Option Repos
  notifications : List String
  attempts : Nat

/-- Model of `init_connection`: attempt `pyodbc.connect`; on success store the
connection and one instance of each of the four repositories and return
them; on any exception show `st.error` and `st.warning`, clear the session
slot and return `None`. -/
def init_connection (env : Env) : GuardResult :=
  match env.connectResult with
  | .ok connection =>
    let repos : Repos := ⟨connection, connection, connection, connection⟩
    ⟨⟨some (connection, repos)⟩, some repos, [], 1⟩
  | .error e =>
    ⟨⟨none⟩, none,
      ["Erro ao conectar ao banco de dados: " ++ e,
       "Verifique se o arquivo `.streamlit/secrets.toml` está configurado corretamente."],
      1⟩

/-- Model of `check_connection`: if no repositories are stored, delegate to
`init_connection`.  Otherwise probe the stored connection with
`SELECT 1` on a temporary cursor (always closed): on success return the
stored repositories unchanged; on a driver error
(`pyodbc.OperationalError` / `pyodbc.ProgrammingError`, the classes the
probe can raise) show `st.warning` and delegate to `init_connection`. -/
def check_connection (env : Env) (s : SessionState) : GuardResult :=
  match s.conn_repos with
  | none => init_connection env
  | some (connection, repos) =>
    match connection.exec "SELECT 1" [] with
    | .ok _ => ⟨s, some repos, [], 0⟩
    | .error _ =>
      let g := init_connection env
      ⟨g.state, g.repos,
        "Conexão com o banco de dados perdida. Tentando reconectar..." :: g.notifications,
        g.attempts⟩

/-! ## Performance summary (mode dispatch) -/

namespace TixlogRepository

/-- Data-source subquery selected by `get_performance_summary_data` for
mode `'24h'`. -/
def perfSubquery24h : String :=
  "[indigo_pix].[dbo].[TIXLOG] WITH (NOLOCK) WHERE [DATAHORA] >= DATEADD(day, -1, GETDATE())"

/-- Data-source subquery selected by `get_performance_summary_data` for
mode `'100k'`. -/
def perfSubquery100k : String :=
  "(SELECT TOP 100000 * FROM [indigo_pix].[dbo].[TIXLOG] WITH (NOLOCK) ORDER BY ID DESC) AS RecentLogs"

/-- Full SQL text of the performance query, with the chosen source
subquery interpolated at both `FROM` sites (string quotes escaped). -/
def perfQuery (source_data_subquery : String) : String :=
  "WITH OperationType_CTE AS (SELECT NR_CONTROLE, MAX(CASE WHEN USUARIO = \x27envia_pix_prod\x27 OR DESCRICAO LIKE \x27%DÉBITO%\x27 THEN \x27OUT\x27 WHEN USUARIO = \x27recebe_pix_prod\x27 OR DESCRICAO LIKE \x27%CRÉDITO%\x27 THEN \x27IN\x27 ELSE \x27Indefinido\x27 END) AS Tipo_Operacao FROM "
  ++ source_data_subquery
  ++ " GROUP BY NR_CONTROLE), TransactionAggregation_CTE AS (SELECT NR_CONTROLE, DATEDIFF(MILLISECOND, MIN(DATAHORA), MAX(DATAHORA)) AS Intervalo_Total_MS FROM "
  ++ source_data_subquery
  ++ " GROUP BY NR_CONTROLE) SELECT agg.NR_CONTROLE, ISNULL(ot.Tipo_Operacao, \x27Indefinido\x27) AS Tipo_Operacao, agg.Intervalo_Total_MS FROM TransactionAggregation_CTE agg LEFT JOIN OperationType_CTE ot ON agg.NR_CONTROLE = ot.NR_CONTROLE;"

/-- Model of `get_performance_summary_data`: the mode selects the source
subquery (`'24h'` / `'100k'`); any other mode returns an empty list at
once, before a cursor is opened.  With a valid mode, a private cursor runs
the aggregate query with no parameters; a `pyodbc.Error` is caught, shown
via `st.error`, and degrades to an empty list. -/
def get_performance_summary_data (conn : Conn) (mode : String) : OpResult :=
  if mode == "24h" ∨ mode == "100k" then
    let sql_query :=
      perfQuery (if mode == "24h" then perfSubquery24h else perfSubquery100k)
    match conn.exec sql_query [] with
    | .ok cur => ⟨.ok (format_results cur), 1, [(sql_query, [])], []⟩
    | .error e => ⟨.ok [], 1, [(sql_query, [])],
        ["Erro ao buscar dados de performance: " ++ e]⟩
  else .noInteraction []

end TixlogRepository

/-! ## Search orchestrator: list mode fan-out and deduplication -/

/-- Drops leading whitespace characters. -/
def dropLeadingWs : List Char → List Char
  | [] => []
  | c :: cs => if c.isWhitespace then dropLeadingWs cs else c :: cs

/-- Python `str.strip()`: remove leading and trailing whitespace. -/
def pyStrip (s : String) : String :=
  ⟨(dropLeadingWs (dropLeadingWs s.data).reverse).reverse⟩

/-- Splits a character list at every occurrence of `sep`
(Python `str.split(sep)` for a one-character separator: `n` separators
yield `n + 1` pieces, empty pieces included). -/
def splitOnChar (sep : Char) : List Char → List (List Char)
  | [] => [[]]
  | c :: cs =>
    let rest := splitOnChar sep cs
    if c == sep then [] :: rest
    else
      match rest with
      | [] => [[c]]
      | piece :: pieces => (c :: piece) :: pieces

/-- Python `input_value.split('\n')`. -/
def pySplitLines (s : String) : List String :=
  (splitOnChar '\n' s.data).map (fun cs => ⟨cs⟩)

/-- The orchestrator's list normalization:
`[line.strip() for line in input_value.split('\n') if line.strip()]`. -/
def trimmed_lines (input_value : String) : List String :=
  ((pySplitLines input_value).map pyStrip).filter (fun line => !line.isEmpty)

/-- Keeps the first occurrence of each element, dropping later exact
duplicates; `seen` holds the elements already emitted. -/
def dropDupAux {α : Type} [DecidableEq α] (seen : List α) : List α → List α
  | [] => []
  | d :: ds => if d ∈ seen then dropDupAux seen ds
               else d :: dropDupAux (d :: seen) ds

/-- Model of `pandas.DataFrame.drop_duplicates()` on a list of records:
removes rows equal to an earlier row (full-row equality), keeping first
occurrences in order. -/
def drop_duplicates {α : Type} [DecidableEq α] (l : List α) : List α :=
  dropDupAux [] l

/-- Model of the complementary fan-out of the list-based search mode:
`temp_complementary = [item for sublist in [mclog.find_by_outras_info(item)
for item in nr_list] for item in sublist]` and, when non-empty,
`pd.DataFrame(temp_complementary).drop_duplicates().to_dict('records')`.
The repository lookup is the `lookup` argument (in the source it is
`find_by_outras_info` on the live connection, whose rows all share one
column set, so the DataFrame round-trip is the identity on records). -/
def list_mode_complementary (lookup : String → List Dict)
    (input_value : String) : List Dict :=
  let nr_list := trimmed_lines input_value
  if nr_list.isEmpty then []
  else
    let temp_complementary := (nr_list.map lookup).flatten
    if temp_complementary.isEmpty then []
    else drop_duplicates temp_complementary

/-! ## JSON-or-text renderer (`display_json_or_text`) -/

/-- Parsed JSON documents, the result type of `json.loads`. -/
inductive Json where
  | null
  | bool (b : Bool)
  | num (n : Int)
  | str (s : String)
  | arr (elems : List Json)
  | obj (members : List (String × Json))

/-- What the renderer draws: the "empty" indicator (`st.info`), a parsed
JSON view (`st.json`), or the original text as plain code (`st.code`). -/
inductive Rendered where
  | infoEmpty
  | jsonView (parsed : Json)
  | codeView (content : String)

/-- Tests whether a character occurs in a list (Python `c in s`). -/
def hasChar (c : Char) : List Char → Bool
  | [] => false
  | a :: as => a == c || hasChar c as

/-- Drops everything before the first occurrence of `c`
(`content[content.find(c):]`); if `c` does not occur, drops everything. -/
def dropBefore (c : Char) : List Char → List Char
  | [] => []
  | a :: as => if a == c then a :: as else dropBefore c as

/-- The substring handed to `json.loads`: from the first opening brace when
one occurs, otherwise the whole content. -/
def json_part_of (content : String) : String :=
  if hasChar '\x7b' content.data then ⟨dropBefore '\x7b' content.data⟩
  else content

/-- Model of `display_json_or_text`.  The Python `json.loads` of the
external `json` library is passed as the oracle `loads` (returning `none`
exactly when it would raise `json.JSONDecodeError`).  `content` is `none`
for a `None`/non-string argument.  Falsy or non-string content renders the
"empty" info box; otherwise the substring from the first `'\x7b'` (or the
whole text) is parsed, rendering the parsed JSON on success and the
original content as plain text on failure. -/
def display_json_or_text (loads : String → Option Json)
    (content : Option String) : Rendered :=
  match content with
  | none => .infoEmpty
  | some s =>
    if s.isEmpty then .infoEmpty
    else
      match loads (json_part_of s) with
      | some parsed => .jsonView parsed
      | none => .codeView s

/-! ## Claims -/

/-- C3, counterexample.  The claim says a blank (whitespace-only) input
string yields an empty result with no data-source interaction; but the
guards are Python truthiness tests (`if not nr_controle`), and `" "` is
truthy, so `find_by_nr_controle " "` opens a cursor and executes the
query. -/
theorem claim_C3_counterexample :
    (TixlogRepository.find_by_nr_controle (failConn "err") " ").cursorsOpened = 1 ∧
    (TixlogRepository.find_by_nr_controle (failConn "err") " ").queries ≠ [] :=
  ⟨rfl, by decide⟩

/-- C3 (amended): for every single-value search operation of every
repository, an *empty* input string yields an empty result list with no
data-source interaction (no cursor opened, no query executed, no
notification); whitespace-only input is not short-circuited. -/
theorem claim_C3_amended (conn : Conn) :
    TixlogRepository.find_by_nr_controle conn "" = .noInteraction [] ∧
    TixlogRepository.find_by_idreqjdpi conn "" = .noInteraction [] ∧
    TixlogRepository.find_by_json_content conn "" = .noInteraction [] ∧
    TixlogRepository.find_by_origem conn "" = .noInteraction [] ∧
    MclogRepository.find_by_outras_info conn "" = .noInteraction [] ∧
    Mix100Repository.find_by_nr_controle conn "" = .noInteraction [] ∧
    Mix100Repository.find_by_endtoendiddevolucao conn "" = .noInteraction [] ∧
    MclogCctRepository.find_by_kyt_id conn "" = .noInteraction [] :=
  ⟨rfl, rfl, rfl, rfl, rfl, rfl, rfl, rfl⟩

/-- C10: `get_performance_summary_data` called with any mode other than
`'24h'` or `'100k'` returns an empty list immediately, without opening a
cursor or contacting the data source. -/
theorem claim_C10 (conn : Conn) (mode : String)
    (h24 : mode ≠ "24h") (h100 : mode ≠ "100k") :
    TixlogRepository.get_performance_summary_data conn mode =
      .noInteraction [] := by
  have hcond : ¬(mode == "24h" ∨ mode == "100k") := by
    simp only [beq_iff_eq]
    intro h
    cases h with
    | inl h => exact h24 h
    | inr h => exact h100 h
  unfold TixlogRepository.get_performance_summary_data
  rw [if_neg hcond]

/-- C10, witness at the concrete mode `"hourly"`. -/
theorem claim_C10_witness :
    TixlogRepository.get_performance_summary_data (failConn "err") "hourly" =
      .noInteraction [] :=
  claim_C10 (failConn "err") "hourly" (by decide) (by decide)

/-- C1, counterexample.  The claim says every repository search operation
catches data-source errors, notifies, and returns an empty list — in
particular the TIXLOG operations routed through `_execute_query`.  But
`_execute_query` has `try/finally` with no `except`: on a connection whose
every query raises, `find_by_nr_controle` propagates the driver error to
its caller and displays no notification. -/
theorem claim_C1_counterexample :
    (TixlogRepository.find_by_nr_controle (failConn "boom") "X").result =
      .error "boom" ∧
    (TixlogRepository.find_by_nr_controle (failConn "boom") "X").notifications = [] :=
  ⟨rfl, rfl⟩

/-- C1 (amended): repository operations with a local `except pyodbc.Error`
handler (`find_by_json_content`, `find_by_outras_info`, both MIX100
searches, `find_by_kyt_id`) catch a data-source error at their own
boundary, report a non-fatal notification, and return an empty result
list; the four TIXLOG operations routed through the shared query helper
`_execute_query` (`find_by_nr_controle`, `find_by_idreqjdpi`,
`find_by_nr_controle_in`, `find_by_origem`) close their cursor but
propagate the data-source exception to the caller with no notification. -/
theorem claim_C1_amended (e t : String) (l : List String)
    (ht : t ≠ "") (hl : l ≠ []) :
    ((TixlogRepository.find_by_json_content (failConn e) t).result = .ok [] ∧
     (TixlogRepository.find_by_json_content (failConn e) t).notifications ≠ []) ∧
    ((MclogRepository.find_by_outras_info (failConn e) t).result = .ok [] ∧
     (MclogRepository.find_by_outras_info (failConn e) t).notifications ≠ []) ∧
    ((Mix100Repository.find_by_nr_controle (failConn e) t).result = .ok [] ∧
     (Mix100Repository.find_by_nr_controle (failConn e) t).notifications ≠ []) ∧
    ((Mix100Repository.find_by_endtoendiddevolucao (failConn e) t).result = .ok [] ∧
     (Mix100Repository.find_by_endtoendiddevolucao (failConn e) t).notifications ≠ []) ∧
    ((MclogCctRepository.find_by_kyt_id (failConn e) t).result = .ok [] ∧
     (MclogCctRepository.find_by_kyt_id (failConn e) t).notifications ≠ []) ∧
    (TixlogRepository.find_by_nr_controle (failConn e) t).result = .error e ∧
    (TixlogRepository.find_by_nr_controle (failConn e) t).notifications = [] ∧
    (TixlogRepository.find_by_idreqjdpi (failConn e) t).result = .error e ∧
    (TixlogRepository.find_by_origem (failConn e) t).result = .error e ∧
    (TixlogRepository.find_by_nr_controle_in (failConn e) l).result = .error e := by
  have ht' : t.isEmpty = false := by
    rw [Bool.eq_false_iff]
    intro hh
    exact ht ((String.isEmpty_iff t).mp hh)
  have hl' : l.isEmpty = false := by
    rw [Bool.eq_false_iff]
    intro hh
    exact hl (List.isEmpty_iff.mp hh)
  refine ⟨⟨?_, ?_⟩, ⟨?_, ?_⟩, ⟨?_, ?_⟩, ⟨?_, ?_⟩, ⟨?_, ?_⟩, ?_, ?_, ?_, ?_, ?_⟩ <;>
    simp [TixlogRepository.find_by_json_content,
      MclogRepository.find_by_outras_info,
      Mix100Repository.find_by_nr_controle,
      Mix100Repository.find_by_endtoendiddevolucao,
      MclogCctRepository.find_by_kyt_id,
      TixlogRepository.find_by_nr_controle,
      TixlogRepository.find_by_idreqjdpi,
      TixlogRepository.find_by_origem,
      TixlogRepository.find_by_nr_controle_in,
      TixlogRepository.execute_query, failConn, ht', hl']

/-- C1, witness at a concrete error, input and list. -/
theorem claim_C1_witness :
    (TixlogRepository.find_by_json_content (failConn "boom") "abc").result =
      .ok [] ∧
    (TixlogRepository.find_by_nr_controle_in (failConn "boom") ["a"]).result =
      .error "boom" :=
  ⟨(claim_C1_amended "boom" "abc" ["a"] (by decide) (by decide)).1.1,
   (claim_C1_amended "boom" "abc" ["a"] (by decide) (by decide)).2.2.2.2.2.2.2.2.2⟩

/-- Number of parameter placeholders (`?` characters) in a piece of SQL
text. -/
def countPlaceholders (s : String) : Nat := s.data.count '?'

lemma data_append (a b : String) : (a ++ b).data = a.data ++ b.data := rfl

lemma count_pyJoin_marks :
    ∀ (l : List String) (acc : String),
      ((l.map (fun _ => "?")).foldl (fun acc b => acc ++ ", " ++ b) acc).data.count '?'
        = acc.data.count '?' + l.length := by
  intro l
  induction l with
  | nil => intro acc; simp
  | cons a l ih =>
    intro acc
    simp only [List.map_cons, List.foldl_cons]
    rw [ih]
    simp [data_append, List.count_append]
    omega

lemma countPlaceholders_in_where_clause (l : List String) (hl : l ≠ []) :
    countPlaceholders (TixlogRepository.in_where_clause l) = l.length := by
  cases l with
  | nil => exact absurd rfl hl
  | cons a as =>
    unfold countPlaceholders TixlogRepository.in_where_clause TixlogRepository.pyJoin
    simp only [List.map_cons]
    rw [data_append, data_append, List.count_append, List.count_append,
      count_pyJoin_marks]
    simp [List.count_cons]
    omega

/-- C5: an empty list input to the in-list search yields an empty result
with no query executed; a non-empty list of `n` strings produces an `IN`
predicate containing exactly `n` placeholders and sends a single query
whose parameters are the list elements in order. -/
theorem claim_C5 (conn : Conn) (nr_controles : List String) :
    (nr_controles = [] →
      TixlogRepository.find_by_nr_controle_in conn nr_controles =
        .noInteraction []) ∧
    (nr_controles ≠ [] →
      countPlaceholders (TixlogRepository.in_where_clause nr_controles) =
        nr_controles.length ∧
      (TixlogRepository.find_by_nr_controle_in conn nr_controles).queries =
        [(TixlogRepository.tixlogBase ++ " WHERE " ++
            TixlogRepository.in_where_clause nr_controles ++ " ORDER BY ID DESC",
          nr_controles.map Value.str)] ∧
      (TixlogRepository.find_by_nr_controle_in conn nr_controles).cursorsOpened = 1) := by
  constructor
  · intro h
    subst h
    rfl
  · intro hl
    have hl' : nr_controles.isEmpty = false := by
      rw [Bool.eq_false_iff]
      intro hh
      exact hl (List.isEmpty_iff.mp hh)
    refine ⟨countPlaceholders_in_where_clause nr_controles hl, ?_, ?_⟩ <;>
      · cases h : conn.exec (TixlogRepository.tixlogBase ++ " WHERE " ++
            TixlogRepository.in_where_clause nr_controles ++ " ORDER BY ID DESC")
            (nr_controles.map Value.str) <;>
          simp [TixlogRepository.find_by_nr_controle_in,
            TixlogRepository.execute_query, hl', h]

/-- C5, witness at the empty list and at a concrete two-element list. -/
theorem claim_C5_witness :
    TixlogRepository.find_by_nr_controle_in (failConn "err") [] =
      .noInteraction [] ∧
    countPlaceholders (TixlogRepository.in_where_clause ["a", "b"]) = 2 :=
  ⟨(claim_C5 (failConn "err") []).1 rfl,
   ((claim_C5 (failConn "err") ["a", "b"]).2 (by decide)).1⟩

lemma sqlMaxStr_self (a : String) : sqlMaxStr a a = a := by
  simp [sqlMaxStr]

lemma foldl_sqlMaxStr_const :
    ∀ (ls : List String) (a : String), (∀ x ∈ ls, x = a) →
      ls.foldl sqlMaxStr a = a
  | [], _, _ => rfl
  | x :: ls, a, h => by
    have hx : x = a := h x (by simp)
    rw [List.foldl_cons, hx, sqlMaxStr_self]
    exact foldl_sqlMaxStr_const ls a (fun y hy => h y (by simp [hy]))

lemma tipoOperacaoMax_const (rows : List TixRow) (lab : String)
    (hne : rows ≠ []) (h : ∀ r ∈ rows, caseTipoOperacao r = lab) :
    tipoOperacaoMax (rows.map caseTipoOperacao) = some lab := by
  cases rows with
  | nil => exact absurd rfl hne
  | cons r rs =>
    simp only [List.map_cons, tipoOperacaoMax]
    rw [h r (by simp), foldl_sqlMaxStr_const]
    intro x hx
    obtain ⟨q, hq, rfl⟩ := List.mem_map.mp hx
    exact h q (by simp [hq])

/-- C4, counterexample.  The claim asserts that a correlation id whose
rows all have actor `'recebe_pix_prod'` infers `'IN'`; but the `CASE`
tries the outbound branch first, so a `recebe_pix_prod` row whose
description contains the debit keyword `DÉBITO` is labelled `'OUT'`, and
the inferred direction is `'OUT'`, not `'IN'`. -/
theorem claim_C4_counterexample :
    inferred_direction [⟨1, "N1", "recebe_pix_prod", "ESTORNO DE DÉBITO"⟩] "N1" =
      some "OUT" ∧
    inferred_direction [⟨1, "N1", "recebe_pix_prod", "ESTORNO DE DÉBITO"⟩] "N1" ≠
      some "IN" := by
  constructor
  · decide
  · decide

/-- C4 (amended): the direction inference computes the SQL `MAX` of the
per-row `CASE` labels over all rows with the given correlation id (`none`
when there is no such row, so no summary row is produced); consequently a
correlation id whose rows all have actor `'envia_pix_prod'` infers
`'OUT'`; one whose rows all have actor `'recebe_pix_prod'` *and whose
descriptions do not contain the debit keyword* infers `'IN'`; and one none
of whose rows matches either actor or either keyword infers
`'Indefinido'`; mixed label sets are resolved deterministically by the
maximum under the string order on the labels. -/
theorem claim_C4_amended (table : List TixRow) (nr_controle : String) :
    inferred_direction table nr_controle =
      tipoOperacaoMax
        ((table.filter (fun r => r.nr_controle == nr_controle)).map caseTipoOperacao) ∧
    (table.filter (fun r => r.nr_controle == nr_controle) = [] →
      inferred_direction table nr_controle = none) ∧
    (table.filter (fun r => r.nr_controle == nr_controle) ≠ [] →
      (∀ r ∈ table.filter (fun r => r.nr_controle == nr_controle),
        r.usuario = "envia_pix_prod") →
      inferred_direction table nr_controle = some "OUT") ∧
    (table.filter (fun r => r.nr_controle == nr_controle) ≠ [] →
      (∀ r ∈ table.filter (fun r => r.nr_controle == nr_controle),
        r.usuario = "recebe_pix_prod" ∧ likeContains r.descricao "DÉBITO" = false) →
      inferred_direction table nr_controle = some "IN") ∧
    (table.filter (fun r => r.nr_controle == nr_controle) ≠ [] →
      (∀ r ∈ table.filter (fun r => r.nr_controle == nr_controle),
        r.usuario ≠ "envia_pix_prod" ∧ r.usuario ≠ "recebe_pix_prod" ∧
        likeContains r.descricao "DÉBITO" = false ∧
        likeContains r.descricao "CRÉDITO" = false) →
      inferred_direction table nr_controle = some "Indefinido") := by
  refine ⟨rfl, ?_, ?_, ?_, ?_⟩
  · intro h
    unfold inferred_direction
    rw [h]
    rfl
  · intro hne h
    unfold inferred_direction
    refine tipoOperacaoMax_const _ _ hne ?_
    intro r hr
    simp [caseTipoOperacao, h r hr]
  · intro hne h
    unfold inferred_direction
    refine tipoOperacaoMax_const _ _ hne ?_
    intro r hr
    obtain ⟨hu, hd⟩ := h r hr
    simp [caseTipoOperacao, hu, hd]
  · intro hne h
    unfold inferred_direction
    refine tipoOperacaoMax_const _ _ hne ?_
    intro r hr
    obtain ⟨hu1, hu2, hd1, hd2⟩ := h r hr
    simp [caseTipoOperacao, hu1, hu2, hd1, hd2]

/-- C4, witness: three singleton tables, one per documented consequence,
plus the empty-group case. -/
theorem claim_C4_witness :
    inferred_direction [⟨1, "N", "envia_pix_prod", "envio"⟩] "N" = some "OUT" ∧
    inferred_direction [⟨1, "N", "recebe_pix_prod", "recebimento"⟩] "N" = some "IN" ∧
    inferred_direction [⟨1, "N", "usuario_x", "outra coisa"⟩] "N" = some "Indefinido" ∧
    inferred_direction [⟨1, "N", "envia_pix_prod", "envio"⟩] "M" = none :=
  ⟨(claim_C4_amended [⟨1, "N", "envia_pix_prod", "envio"⟩] "N").2.2.1
      (by decide) (by decide),
   (claim_C4_amended [⟨1, "N", "recebe_pix_prod", "recebimento"⟩] "N").2.2.2.1
      (by decide) (by decide),
   (claim_C4_amended [⟨1, "N", "usuario_x", "outra coisa"⟩] "N").2.2.2.2
      (by decide) (by decide),
   (claim_C4_amended [⟨1, "N", "envia_pix_prod", "envio"⟩] "M").2.1 (by decide)⟩

/-- C6: the connection guardian's state-machine contract.  With no session
state, `check_connection` delegates to `init_connection`, which on success
stores one connection paired with one instance of each of the four
repositories and returns them, and on failure returns `None` with a
reported error.  With session state present it issues the `SELECT 1`
liveness probe: on success it returns the stored repositories unchanged
with no reconnect attempt; on failure it performs exactly one
re-establishment attempt, ending with either fresh repositories bound to
the new connection or `None` plus a reported error.  In every case the
caller observes either valid repositories or a non-empty reported error,
never an intermediate failed state. -/
theorem claim_C6 (env : Env) (s : SessionState) :
    (s.conn_repos = none →
      check_connection env s = init_connection env ∧
      (∀ c, env.connectResult = .ok c →
        check_connection env s =
          ⟨⟨some (c, ⟨c, c, c, c⟩)⟩, some ⟨c, c, c, c⟩, [], 1⟩) ∧
      (∀ e, env.connectResult = .error e →
        (check_connection env s).repos = none ∧
        (check_connection env s).state = ⟨none⟩ ∧
        (check_connection env s).notifications ≠ [])) ∧
    (∀ c r, s.conn_repos = some (c, r) →
      (∀ cur, c.exec "SELECT 1" [] = .ok cur →
        check_connection env s = ⟨s, some r, [], 0⟩) ∧
      (∀ e, c.exec "SELECT 1" [] = .error e →
        (check_connection env s).attempts = 1 ∧
        ((∃ c2, env.connectResult = .ok c2 ∧
            (check_connection env s).repos = some ⟨c2, c2, c2, c2⟩ ∧
            (check_connection env s).state = ⟨some (c2, ⟨c2, c2, c2, c2⟩)⟩) ∨
          ((∃ e2, env.connectResult = .error e2) ∧
            (check_connection env s).repos = none ∧
            (check_connection env s).notifications ≠ [])))) ∧
    ((check_connection env s).repos.isSome = true ∨
      (check_connection env s).notifications ≠ []) := by
  refine ⟨?_, ?_, ?_⟩
  · intro hn
    refine ⟨by simp [check_connection, hn], ?_, ?_⟩
    · intro c hc
      simp [check_connection, hn, init_connection, hc]
    · intro e he
      simp [check_connection, hn, init_connection, he]
  · intro c r hs
    constructor
    · intro cur hcur
      simp [check_connection, hs, hcur]
    · intro e he
      cases hc : env.connectResult with
      | ok c2 =>
        refine ⟨by simp [check_connection, hs, he, init_connection, hc], ?_⟩
        left
        exact ⟨c2, rfl, by simp [check_connection, hs, he, init_connection, hc],
          by simp [check_connection, hs, he, init_connection, hc]⟩
      | error e2 =>
        refine ⟨by simp [check_connection, hs, he, init_connection, hc], ?_⟩
        right
        exact ⟨⟨e2, rfl⟩, by simp [check_connection, hs, he, init_connection, hc],
          by simp [check_connection, hs, he, init_connection, hc]⟩
  · cases hs : s.conn_repos with
    | none =>
      cases hc : env.connectResult with
      | ok c => left; simp [check_connection, hs, init_connection, hc]
      | error e => right; simp [check_connection, hs, init_connection, hc]
    | some p =>
      obtain ⟨c, r⟩ := p
      cases hp : c.exec "SELECT 1" [] with
      | ok cur => left; simp [check_connection, hs, hp]
      | error e =>
        cases hc : env.connectResult with
        | ok c2 => left; simp [check_connection, hs, hp, init_connection, hc]
        | error e2 => right; simp [check_connection, hs, hp, init_connection, hc]

/-- A connection whose every query succeeds with an empty result set. -/
def okConn : Conn := ⟨fun _ _ => .ok ⟨[], []⟩⟩

/-- C6, witness: a live session keeps its repositories with no reconnect
attempt; a dead session reconnects exactly once. -/
theorem claim_C6_witness :
    check_connection ⟨.ok okConn⟩
        ⟨some (okConn, ⟨okConn, okConn, okConn, okConn⟩)⟩ =
      ⟨⟨some (okConn, ⟨okConn, okConn, okConn, okConn⟩)⟩,
        some ⟨okConn, okConn, okConn, okConn⟩, [], 0⟩ ∧
    (check_connection ⟨.ok okConn⟩
        ⟨some (failConn "down", ⟨failConn "down", failConn "down",
          failConn "down", failConn "down"⟩)⟩).attempts = 1 :=
  ⟨(((claim_C6 ⟨.ok okConn⟩
        ⟨some (okConn, ⟨okConn, okConn, okConn, okConn⟩)⟩).2.1
      okConn ⟨okConn, okConn, okConn, okConn⟩ rfl).1 ⟨[], []⟩ rfl),
   (((claim_C6 ⟨.ok okConn⟩
        ⟨some (failConn "down", ⟨failConn "down", failConn "down",
          failConn "down", failConn "down"⟩)⟩).2.1
      (failConn "down") ⟨failConn "down", failConn "down",
        failConn "down", failConn "down"⟩ rfl).2 "down" rfl).1⟩

lemma mem_dropDupAux {α : Type} [DecidableEq α] :
    ∀ (l seen : List α) (x : α),
      x ∈ dropDupAux seen l ↔ x ∈ l ∧ x ∉ seen
  | [], seen, x => by simp [dropDupAux]
  | d :: ds, seen, x => by
    by_cases hd : d ∈ seen
    · rw [dropDupAux, if_pos hd, mem_dropDupAux ds seen x]
      simp only [List.mem_cons]
      constructor
      · rintro ⟨hx, hns⟩
        exact ⟨Or.inr hx, hns⟩
      · rintro ⟨hx | hx, hns⟩
        · exact absurd (hx ▸ hd) hns
        · exact ⟨hx, hns⟩
    · rw [dropDupAux, if_neg hd]
      simp only [List.mem_cons, mem_dropDupAux ds (d :: seen) x]
      constructor
      · rintro (rfl | ⟨hx, hns⟩)
        · exact ⟨Or.inl rfl, hd⟩
        · exact ⟨Or.inr hx, fun hxs => hns (Or.inr hxs)⟩
      · rintro ⟨rfl | hx, hns⟩
        · exact Or.inl rfl
        · by_cases hxd : x = d
          · exact Or.inl hxd
          · exact Or.inr ⟨hx, fun hc => hc.elim hxd hns⟩

lemma nodup_dropDupAux {α : Type} [DecidableEq α] :
    ∀ (l seen : List α), (dropDupAux seen l).Nodup
  | [], _ => by simp [dropDupAux]
  | d :: ds, seen => by
    by_cases hd : d ∈ seen
    · rw [dropDupAux, if_pos hd]
      exact nodup_dropDupAux ds seen
    · rw [dropDupAux, if_neg hd, List.nodup_cons]
      refine ⟨?_, nodup_dropDupAux ds (d :: seen)⟩
      rw [mem_dropDupAux]
      rintro ⟨-, hns⟩
      exact hns (by simp)

/-- Number of occurrences of a row in a list of rows. -/
def countOcc {α : Type} [DecidableEq α] (x : α) : List α → Nat
  | [] => 0
  | y :: ys => (if y = x then 1 else 0) + countOcc x ys

lemma countOcc_eq_zero {α : Type} [DecidableEq α] {x : α} :
    ∀ {l : List α}, x ∉ l → countOcc x l = 0
  | [], _ => rfl
  | y :: ys, h => by
    have hyx : ¬(y = x) := fun hc => h (by simp [hc])
    rw [countOcc, if_neg hyx, countOcc_eq_zero (fun hc => h (by simp [hc]))]

lemma countOcc_eq_one {α : Type} [DecidableEq α] {x : α} :
    ∀ {l : List α}, l.Nodup → x ∈ l → countOcc x l = 1
  | [], _, hx => by simp at hx
  | y :: ys, hnd, hx => by
    rw [List.nodup_cons] at hnd
    by_cases hyx : y = x
    · subst hyx
      rw [countOcc, if_pos rfl, countOcc_eq_zero hnd.1]
    · have hx' : x ∈ ys := by
        rcases List.mem_cons.mp hx with h | h
        · exact absurd h.symm hyx
        · exact h
      rw [countOcc, if_neg hyx, countOcc_eq_one hnd.2 hx']

/-- C7: for the list-based search mode, the complementary results are the
per-element `find_by_outras_info` lookups over the trimmed non-blank list
elements, concatenated and deduplicated by full-row equality: the merged
list contains exactly the rows of the concatenation, contains no duplicate
entry, and any row of the concatenation (in particular one produced by two
different lookups) appears exactly once. -/
theorem claim_C7 (lookup : String → List Dict) (input_value : String) :
    (∀ d, d ∈ list_mode_complementary lookup input_value ↔
      d ∈ ((trimmed_lines input_value).map lookup).flatten) ∧
    (list_mode_complementary lookup input_value).Nodup ∧
    (∀ d ∈ ((trimmed_lines input_value).map lookup).flatten,
      countOcc d (list_mode_complementary lookup input_value) = 1) := by
  unfold list_mode_complementary
  by_cases hn : (trimmed_lines input_value).isEmpty
  · rw [if_pos hn]
    rw [List.isEmpty_iff] at hn
    rw [hn]
    simp
  · rw [if_neg hn]
    by_cases ht : (((trimmed_lines input_value).map lookup).flatten).isEmpty
    · rw [if_pos ht]
      rw [List.isEmpty_iff] at ht
      rw [ht]
      simp
    · rw [if_neg ht]
      have hmem : ∀ d, d ∈ drop_duplicates
          (((trimmed_lines input_value).map lookup).flatten) ↔
          d ∈ ((trimmed_lines input_value).map lookup).flatten := by
        intro d
        rw [drop_duplicates, mem_dropDupAux]
        simp
      refine ⟨hmem, nodup_dropDupAux _ _, ?_⟩
      intro d hd
      exact countOcc_eq_one (nodup_dropDupAux _ _) ((hmem d).mpr hd)

/-- A lookup returning the same single row for every searched element
(two row-identical complementary results). -/
def constLookup : String → List Dict := fun _ => [[("ID", Value.int 7)]]

/-- C7, witness: two list elements whose lookups return the same row
collapse to a single entry in the merged list. -/
theorem claim_C7_witness :
    countOcc [("ID", Value.int 7)] (list_mode_complementary constLookup "a\nb") = 1 :=
  (claim_C7 constLookup "a\nb").2.2 [("ID", Value.int 7)] (by decide)

lemma dropBefore_spec (c : Char) :
    ∀ l : List Char, hasChar c l = true →
      ∃ p, l = p ++ dropBefore c l ∧ hasChar c p = false ∧
        (dropBefore c l).head? = some c
  | [], h => by simp [hasChar] at h
  | a :: as, h => by
    by_cases hac : (a == c) = true
    · refine ⟨[], ?_, rfl, ?_⟩
      · rw [dropBefore, if_pos hac]
        rfl
      · rw [dropBefore, if_pos hac]
        simp [beq_iff_eq.mp hac]
    · have h' : hasChar c as = true := by
        rw [hasChar, Bool.or_eq_true] at h
        rcases h with h | h
        · exact absurd h hac
        · exact h
      obtain ⟨p, hp1, hp2, hp3⟩ := dropBefore_spec c as h'
      refine ⟨a :: p, ?_, ?_, ?_⟩
      · rw [dropBefore, if_neg hac, List.cons_append, ← hp1]
      · have hac' : (a == c) = false := by
          rw [Bool.eq_false_iff]
          exact hac
        rw [hasChar, hac', hp2]
        rfl
      · rw [dropBefore, if_neg hac]
        exact hp3

lemma isEmpty_false_of_ne {s : String} (h : s ≠ "") : s.isEmpty = false := by
  rw [Bool.eq_false_iff]
  intro hh
  exact h ((String.isEmpty_iff s).mp hh)

/-- C8: the JSON-or-text renderer, for any parse oracle `loads` (the
external `json.loads`): empty or non-string input renders the "empty"
indicator without error; when the input contains an opening brace the
parsed substring is exactly the suffix starting at the first brace (the
prefix before it contains no brace); when that substring parses, the
parsed JSON is rendered; on parse failure the original input text is
rendered unchanged as plain text. -/
theorem claim_C8 (loads : String → Option Json) :
    display_json_or_text loads none = Rendered.infoEmpty ∧
    display_json_or_text loads (some "") = Rendered.infoEmpty ∧
    (∀ s : String, hasChar '\x7b' s.data = true →
      ∃ p, s.data = p ++ (json_part_of s).data ∧
        hasChar '\x7b' p = false ∧
        (json_part_of s).data.head? = some '\x7b') ∧
    (∀ s, ¬ hasChar '\x7b' s.data = true → json_part_of s = s) ∧
    (∀ (s : String) (parsed : Json), s ≠ "" →
      loads (json_part_of s) = some parsed →
      display_json_or_text loads (some s) = Rendered.jsonView parsed) ∧
    (∀ s : String, s ≠ "" → loads (json_part_of s) = none →
      display_json_or_text loads (some s) = Rendered.codeView s) := by
  refine ⟨rfl, rfl, ?_, ?_, ?_, ?_⟩
  · intro s hs
    obtain ⟨p, hp1, hp2, hp3⟩ := dropBefore_spec '\x7b' s.data hs
    refine ⟨p, ?_, hp2, ?_⟩
    · rw [json_part_of, if_pos hs]
      exact hp1
    · rw [json_part_of, if_pos hs]
      exact hp3
  · intro s hs
    rw [json_part_of, if_neg hs]
  · intro s parsed hne hload
    rw [display_json_or_text, if_neg (by simp [isEmpty_false_of_ne hne]), hload]
  · intro s hne hload
    rw [display_json_or_text, if_neg (by simp [isEmpty_false_of_ne hne]), hload]

/-- A concrete stand-in for `json.loads`: parses exactly the document
`\x7b"a":1\x7d` and rejects everything else. -/
def demoLoads : String → Option Json := fun t =>
  if t = "\x7b\"a\":1\x7d" then some (Json.obj [("a", Json.num 1)]) else none

/-- C8, witness: the log line with an embedded JSON object renders the
parsed object, plain text renders as code, and a non-string renders the
"empty" indicator. -/
theorem claim_C8_witness :
    display_json_or_text demoLoads (some "valor = \x7b\"a\":1\x7d") =
      Rendered.jsonView (Json.obj [("a", Json.num 1)]) ∧
    display_json_or_text demoLoads (some "not json") =
      Rendered.codeView "not json" ∧
    display_json_or_text demoLoads none = Rendered.infoEmpty :=
  ⟨(claim_C8 demoLoads).2.2.2.2.1 "valor = \x7b\"a\":1\x7d"
      (Json.obj [("a", Json.num 1)]) (by decide) rfl,
   (claim_C8 demoLoads).2.2.2.2.2 "not json" (by decide) rfl,
   (claim_C8 demoLoads).1⟩

lemma dictInsert_of_keys_not_mem {d : Dict} {k : String} (v : Value)
    (h : ∀ p ∈ d, p.1 ≠ k) : dictInsert d k v = d ++ [(k, v)] := by
  rw [dictInsert, if_neg]
  intro hc
  obtain ⟨p, hp, hpk⟩ := List.any_eq_true.mp hc
  exact h p hp (beq_iff_eq.mp hpk)

lemma foldl_dictInsert_eq_append :
    ∀ (ps : List (String × Value)) (d : Dict),
      (d.map Prod.fst ++ ps.map Prod.fst).Nodup →
      ps.foldl (fun d p => dictInsert d p.1 p.2) d = d ++ ps
  | [], d, _ => by simp
  | p :: ps, d, hnd => by
    have hdisj := (List.nodup_append.mp hnd).2.2
    have hp : ∀ q ∈ d, q.1 ≠ p.1 := by
      intro q hq hqp
      exact hdisj (List.mem_map_of_mem Prod.fst hq) (by simp [hqp])
    have hnd' : ((d ++ [p]).map Prod.fst ++ ps.map Prod.fst).Nodup := by
      simpa [List.append_assoc] using hnd
    rw [List.foldl_cons, dictInsert_of_keys_not_mem p.2 hp,
      foldl_dictInsert_eq_append ps (d ++ [p]) hnd']
    simp

/-- C2: for a cursor result with (distinct) ordered column names and rows
positionally aligned with the columns, `_format_results` returns one
dictionary per row, in row order, whose entries are exactly the pairs
`(ci, i-th value)` in column order — no extra and no missing keys, values
unmodified. -/
theorem claim_C2 (cur : CursorResult)
    (hnd : cur.description.Nodup)
    (hlen : ∀ r ∈ cur.rows, r.length = cur.description.length) :
    format_results cur = cur.rows.map (fun r => cur.description.zip r) ∧
    ∀ r ∈ cur.rows,
      (cur.description.zip r).map Prod.fst = cur.description ∧
      (cur.description.zip r).map Prod.snd = r := by
  have hkeys : ∀ r ∈ cur.rows,
      (cur.description.zip r).map Prod.fst = cur.description := by
    intro r hr
    exact List.map_fst_zip _ _ (le_of_eq (hlen r hr).symm)
  constructor
  · rw [format_results]
    refine List.map_congr_left ?_
    intro r hr
    rw [dictZip, foldl_dictInsert_eq_append]
    · simp
    · simp only [List.map_nil, List.nil_append]
      rw [hkeys r hr]
      exact hnd
  · intro r hr
    exact ⟨hkeys r hr, List.map_snd_zip _ _ (le_of_eq (hlen r hr))⟩

/-- C2, witness at a concrete three-column, two-row cursor result. -/
theorem claim_C2_witness :
    format_results ⟨["c1", "c2", "c3"],
        [[Value.int 1, Value.str "x", Value.null],
         [Value.int 2, Value.str "y", Value.null]]⟩ =
      [[("c1", Value.int 1), ("c2", Value.str "x"), ("c3", Value.null)],
       [("c1", Value.int 2), ("c2", Value.str "y"), ("c3", Value.null)]] := by
  rw [(claim_C2 ⟨["c1", "c2", "c3"],
        [[Value.int 1, Value.str "x", Value.null],
         [Value.int 2, Value.str "y", Value.null]]⟩
      (by decide) (by decide)).1]
  rfl

/-- The keys of a dictionary, in insertion order. -/
def dictKeys (d : Dict) : List String := d.map Prod.fst

lemma dictKeys_dictInsert (d : Dict) (k : String) (v : Value) :
    dictKeys (dictInsert d k v) =
      if k ∈ dictKeys d then dictKeys d else dictKeys d ++ [k] := by
  by_cases hmem : k ∈ dictKeys d
  · rw [if_pos hmem, dictInsert, if_pos]
    · rw [dictKeys, List.map_map]
      refine List.map_congr_left ?_
      intro p _
      simp only [Function.comp]
      by_cases hpk : (p.1 == k) = true
      · rw [if_pos hpk]
        exact (beq_iff_eq.mp hpk).symm
      · rw [if_neg hpk]
    · obtain ⟨q, hq, hqk⟩ := List.mem_map.mp hmem
      exact List.any_eq_true.mpr ⟨q, hq, beq_iff_eq.mpr hqk⟩
  · rw [if_neg hmem, dictInsert, if_neg]
    · rw [dictKeys, List.map_append]
      rfl
    · intro hc
      obtain ⟨q, hq, hqk⟩ := List.any_eq_true.mp hc
      exact hmem (List.mem_map.mpr ⟨q, hq, beq_iff_eq.mp hqk⟩)

lemma mem_dictKeys_dictInsert (d : Dict) (k q : String) (v : Value) :
    q ∈ dictKeys (dictInsert d k v) ↔ q ∈ dictKeys d ∨ q = k := by
  rw [dictKeys_dictInsert]
  by_cases hmem : k ∈ dictKeys d
  · rw [if_pos hmem]
    constructor
    · exact Or.inl
    · rintro (h | rfl)
      · exact h
      · exact hmem
  · rw [if_neg hmem]
    simp

lemma mem_dictKeys_foldl :
    ∀ (ps : List (String × Value)) (d : Dict) (q : String),
      q ∈ dictKeys (ps.foldl (fun d p => dictInsert d p.1 p.2) d) ↔
        q ∈ dictKeys d ∨ q ∈ ps.map Prod.fst
  | [], d, q => by simp
  | p :: ps, d, q => by
    rw [List.foldl_cons, mem_dictKeys_foldl ps _ q, mem_dictKeys_dictInsert]
    simp only [List.map_cons, List.mem_cons]
    tauto

lemma nodup_dictKeys_dictInsert (d : Dict) (k : String) (v : Value)
    (h : (dictKeys d).Nodup) : (dictKeys (dictInsert d k v)).Nodup := by
  rw [dictKeys_dictInsert]
  by_cases hmem : k ∈ dictKeys d
  · rw [if_pos hmem]
    exact h
  · rw [if_neg hmem, List.nodup_append]
    refine ⟨h, List.nodup_singleton k, ?_⟩
    intro a ha hak
    rw [List.mem_singleton] at hak
    exact hmem (hak ▸ ha)

lemma nodup_dictKeys_foldl :
    ∀ (ps : List (String × Value)) (d : Dict),
      (dictKeys d).Nodup →
      (dictKeys (ps.foldl (fun d p => dictInsert d p.1 p.2) d)).Nodup
  | [], _, h => h
  | p :: ps, d, h => by
    rw [List.foldl_cons]
    exact nodup_dictKeys_foldl ps _ (nodup_dictKeys_dictInsert d p.1 p.2 h)

/-- First-some choice on options: the lookup result of the left list,
falling back to the right. -/
def optOr {α : Type} : Option α → Option α → Option α
  | some v, _ => some v
  | none, o => o

lemma optOr_none_right {α : Type} (a : Option α) : optOr a none = a := by
  cases a <;> rfl

lemma optOr_assoc {α : Type} (a b c : Option α) :
    optOr (optOr a b) c = optOr a (optOr b c) := by
  cases a <;> rfl

lemma lookup_cons' (p : String × Value) (l : List (String × Value)) (q : String) :
    (p :: l).lookup q = if (q == p.1) = true then some p.2 else l.lookup q := by
  obtain ⟨k, v⟩ := p
  rw [List.lookup_cons]
  cases h : q == k
  · rw [if_neg (by simp [h])]
  · rw [if_pos (by simp [h])]

lemma lookup_append_dict :
    ∀ (l₁ l₂ : List (String × Value)) (q : String),
      (l₁ ++ l₂).lookup q = optOr (l₁.lookup q) (l₂.lookup q)
  | [], l₂, q => by simp [optOr]
  | p :: l₁, l₂, q => by
    rw [List.cons_append, lookup_cons', lookup_cons',
      lookup_append_dict l₁ l₂ q]
    by_cases h : (q == p.1) = true
    · rw [if_pos h, if_pos h]
      rfl
    · rw [if_neg h, if_neg h]

lemma lookup_eq_none_of_keys :
    ∀ (d : Dict) (k : String), (∀ p ∈ d, p.1 ≠ k) → d.lookup k = none
  | [], _, _ => rfl
  | p :: d, k, h => by
    rw [lookup_cons', if_neg, lookup_eq_none_of_keys d k
      (fun q hq => h q (by simp [hq]))]
    intro hc
    exact h p (by simp) (beq_iff_eq.mp hc).symm

lemma lookup_map_replace_ne (k q : String) (v : Value) (hqk : q ≠ k) :
    ∀ d : Dict,
      (d.map (fun p => if p.1 == k then (k, v) else p)).lookup q = d.lookup q
  | [] => rfl
  | p :: d => by
    by_cases hpk : (p.1 == k) = true
    · rw [List.map_cons, if_pos hpk, lookup_cons', lookup_cons']
      have h1 : ¬((q == ((k, v) : String × Value).1) = true) :=
        fun hc => hqk (beq_iff_eq.mp hc)
      have h2 : ¬((q == p.1) = true) :=
        fun hc => hqk ((beq_iff_eq.mp hc).trans (beq_iff_eq.mp hpk))
      rw [if_neg h1, if_neg h2]
      exact lookup_map_replace_ne k q v hqk d
    · rw [List.map_cons, if_neg hpk, lookup_cons', lookup_cons']
      by_cases hq : (q == p.1) = true
      · rw [if_pos hq, if_pos hq]
      · rw [if_neg hq, if_neg hq]
        exact lookup_map_replace_ne k q v hqk d

lemma lookup_map_replace_hit (k : String) (v : Value) :
    ∀ d : Dict, (∃ p ∈ d, p.1 = k) →
      (d.map (fun p => if p.1 == k then (k, v) else p)).lookup k = some v
  | [], h => by simp at h
  | p :: d, h => by
    by_cases hpk : (p.1 == k) = true
    · rw [List.map_cons, if_pos hpk, lookup_cons',
        if_pos (beq_self_eq_true k)]
    · rw [List.map_cons, if_neg hpk, lookup_cons', if_neg
        (fun hc => hpk (beq_iff_eq.mpr (beq_iff_eq.mp hc).symm))]
      apply lookup_map_replace_hit
      obtain ⟨q, hq, hqk⟩ := h
      rcases List.mem_cons.mp hq with rfl | hmem
      · exact absurd (beq_iff_eq.mpr hqk) hpk
      · exact ⟨q, hmem, hqk⟩

lemma lookup_dictInsert (d : Dict) (k q : String) (v : Value) :
    (dictInsert d k v).lookup q = if q = k then some v else d.lookup q := by
  by_cases hany : (d.any (fun p => p.1 == k)) = true
  · rw [dictInsert, if_pos hany]
    by_cases hqk : q = k
    · subst hqk
      rw [if_pos rfl]
      apply lookup_map_replace_hit
      obtain ⟨p, hp, hpk⟩ := List.any_eq_true.mp hany
      exact ⟨p, hp, beq_iff_eq.mp hpk⟩
    · rw [if_neg hqk]
      exact lookup_map_replace_ne k q v hqk d
  · rw [dictInsert, if_neg hany, lookup_append_dict]
    have hnone : ∀ p ∈ d, p.1 ≠ k := by
      intro p hp hpk
      exact hany (List.any_eq_true.mpr ⟨p, hp, beq_iff_eq.mpr hpk⟩)
    by_cases hqk : q = k
    · subst hqk
      rw [if_pos rfl, lookup_eq_none_of_keys d q hnone, lookup_cons',
        if_pos (beq_self_eq_true q)]
      rfl
    · rw [if_neg hqk]
      have hsingle : (((k, v) : String × Value) :: []).lookup q = none := by
        rw [lookup_cons', if_neg (fun hc => hqk (beq_iff_eq.mp hc))]
        rfl
      rw [hsingle, optOr_none_right]

lemma optOr_single (p : String × Value) (d : Dict) (q : String) :
    optOr (([p] : List (String × Value)).lookup q) (d.lookup q) =
      if q = p.1 then some p.2 else d.lookup q := by
  rw [lookup_cons']
  by_cases hq : q = p.1
  · rw [if_pos (beq_iff_eq.mpr hq), if_pos hq]
    rfl
  · rw [if_neg (fun hc => hq (beq_iff_eq.mp hc)), if_neg hq]
    rfl

lemma lookup_foldl :
    ∀ (ps : List (String × Value)) (d : Dict) (q : String),
      (ps.foldl (fun d p => dictInsert d p.1 p.2) d).lookup q =
        optOr (ps.reverse.lookup q) (d.lookup q)
  | [], d, q => by simp [optOr]
  | p :: ps, d, q => by
    rw [List.foldl_cons, lookup_foldl ps _ q, lookup_dictInsert,
      List.reverse_cons, lookup_append_dict, optOr_assoc, optOr_single]

lemma dictZip_lookup (cols : List String) (r : Row) (q : String) :
    (dictZip cols r).lookup q = ((cols.zip r).reverse).lookup q := by
  rw [dictZip, lookup_foldl, List.lookup_nil, optOr_none_right]

/-- C9: when the cursor's column description contains duplicate names, the
per-row dictionary built by `_format_results` collapses them — its keys
are the distinct column names only, looking up a name yields the value at
the last position bearing it (first hit in the reversed column/value
pairing), and the dictionary has strictly fewer entries than the row has
values. -/
theorem claim_C9 (cur : CursorResult)
    (hdup : ¬ cur.description.Nodup)
    (hlen : ∀ r ∈ cur.rows, r.length = cur.description.length) :
    format_results cur = cur.rows.map (fun r => dictZip cur.description r) ∧
    ∀ r ∈ cur.rows,
      (dictKeys (dictZip cur.description r)).Nodup ∧
      (∀ k, k ∈ dictKeys (dictZip cur.description r) ↔ k ∈ cur.description) ∧
      (∀ k, (dictZip cur.description r).lookup k =
        ((cur.description.zip r).reverse).lookup k) ∧
      (dictZip cur.description r).length < r.length := by
  refine ⟨rfl, ?_⟩
  intro r hr
  have hmapfst : (cur.description.zip r).map Prod.fst = cur.description :=
    List.map_fst_zip _ _ (le_of_eq (hlen r hr).symm)
  have hknd : (dictKeys (dictZip cur.description r)).Nodup := by
    rw [dictZip]
    exact nodup_dictKeys_foldl _ [] (by simp [dictKeys])
  have hkmem : ∀ k, k ∈ dictKeys (dictZip cur.description r) ↔
      k ∈ cur.description := by
    intro k
    rw [dictZip, mem_dictKeys_foldl, hmapfst]
    simp [dictKeys]
  refine ⟨hknd, hkmem, fun k => dictZip_lookup _ _ k, ?_⟩
  have hperm : (dictKeys (dictZip cur.description r)).Perm
      cur.description.dedup :=
    (List.perm_ext_iff_of_nodup hknd (List.nodup_dedup _)).mpr
      (fun k => by rw [hkmem k, List.mem_dedup])
  have hlt : cur.description.dedup.length < cur.description.length := by
    have hsub := List.dedup_sublist cur.description
    rcases lt_or_eq_of_le hsub.length_le with h | h
    · exact h
    · exact absurd (List.dedup_eq_self.mp (hsub.eq_of_length h)) hdup
  have hlen1 : (dictZip cur.description r).length =
      (dictKeys (dictZip cur.description r)).length := by
    rw [dictKeys, List.length_map]
  rw [hlen1, hperm.length_eq, hlen r hr]
  exact hlt

/-- C9, witness: a two-column cursor whose columns are both named `A`
produces a one-entry dictionary holding the second (last) value. -/
theorem claim_C9_witness :
    (dictZip ["A", "A"] [Value.int 1, Value.int 2]).length <
      ([Value.int 1, Value.int 2] : Row).length ∧
    (dictZip ["A", "A"] [Value.int 1, Value.int 2]).lookup "A" =
      ((["A", "A"].zip ([Value.int 1, Value.int 2] : Row)).reverse).lookup "A" :=
  ⟨((claim_C9 ⟨["A", "A"], [[Value.int 1, Value.int 2]]⟩ (by decide) (by decide)).2
      [Value.int 1, Value.int 2] (by decide)).2.2.2,
   ((claim_C9 ⟨["A", "A"], [[Value.int 1, Value.int 2]]⟩ (by decide) (by decide)).2
      [Value.int 1, Value.int 2] (by decide)).2.2.1 "A"⟩
